import Mathlib

/-!
Verification development for the ParaLlama task-dispatch core
(`src/task.ts`, `src/llama.ts`, `src/runner.ts`).

The development is a shallow embedding of the TypeScript sources:

* `Value` models the JavaScript values a task payload may take
  (primitives, arrays and keyed mappings, per the data model in the spec);
  `truthy` models JavaScript truthiness, which the sources test with `!x`.
* The `@msgpack/msgpack` codec is an external collaborator that the spec
  treats as an opaque, lossless `encode`/`decode` pair; it is modelled here
  by an executable tag-length-value codec (`encodeVal` / `decodeTop`) whose
  losslessness is proved, not assumed.
* `JSON.parse(JSON.stringify x)` (used by `Task.clone`) is modelled by the
  structural rebuild `jsonDeepCopy`, which is the behaviour of a JSON
  round-trip on the JSON-representable values of `Value`.
* Function-as-text (`Function.prototype.toString` and
  `new Function('return ' + src)()`) is modelled by an executable renderer
  `renderFn` and parser `parseReturn` over a fragment of arrow-function
  sources sufficient for the behaviours the sources exercise.
-/

namespace ParaLlama

/-- JavaScript values that can appear as a task payload: primitives,
arrays and keyed mappings, arbitrarily nested. -/
inductive Value where
  | vNull
  | vBool (b : Bool)
  | vInt (n : Int)
  | vStr (s : String)
  | vArr (elems : List Value)
  | vObj (fields : List (String × Value))

/-- JavaScript truthiness: `null`, `false`, `0` and `""` are falsy;
every array or object (including empty ones) is truthy.  The sources
test payloads with `!data`. -/
def truthy : Value → Bool
  | .vNull => false
  | .vBool b => b
  | .vInt n => n != 0
  | .vStr s => s.length != 0
  | .vArr _ => true
  | .vObj _ => true

mutual

/-- Model of `JSON.parse(JSON.stringify x)` (the deep-copy idiom used by
`Task.clone`): a structural rebuild of the value.  On the JSON-representable
values of `Value` the JSON round-trip is lossless, so the rebuild is provably
the identity (`jsonDeepCopy_eq`). -/
def jsonDeepCopy : Value → Value
  | .vNull => .vNull
  | .vBool b => .vBool b
  | .vInt n => .vInt n
  | .vStr s => .vStr s
  | .vArr xs => .vArr (jsonDeepCopyList xs)
  | .vObj fs => .vObj (jsonDeepCopyFields fs)

def jsonDeepCopyList : List Value → List Value
  | [] => []
  | v :: vs => jsonDeepCopy v :: jsonDeepCopyList vs

def jsonDeepCopyFields : List (String × Value) → List (String × Value)
  | [] => []
  | (k, v) :: fs => (k, jsonDeepCopy v) :: jsonDeepCopyFields fs

end

mutual

/-- Model of `JSON.stringify`, used by `Task.isLargeDataset` to measure the
textual size of a payload. -/
def jsonStringify : Value → String
  | .vNull => "null"
  | .vBool b => cond b "true" "false"
  | .vInt n => toString n
  | .vStr s => "\"" ++ s ++ "\""
  | .vArr xs => "[" ++ jsonStringifyList xs ++ "]"
  | .vObj fs => "\x7b" ++ jsonStringifyFields fs ++ "\x7d"

def jsonStringifyList : List Value → String
  | [] => ""
  | [v] => jsonStringify v
  | v :: vs => jsonStringify v ++ "," ++ jsonStringifyList vs

def jsonStringifyFields : List (String × Value) → String
  | [] => ""
  | [(k, v)] => "\"" ++ k ++ "\":" ++ jsonStringify v
  | (k, v) :: fs => "\"" ++ k ++ "\":" ++ jsonStringify v ++ "," ++ jsonStringifyFields fs

end

/-- Byte encoding of one string: character count followed by the code
points. -/
def encodeStr (s : String) : List Nat :=
  s.toList.length :: s.toList.map Char.toNat

mutual

/-- Model of the external `@msgpack/msgpack` `encode`: an executable,
lossless tag-length-value encoding of a `Value` into a byte sequence
(the spec treats the codec as an opaque lossless pair, so only its
round-trip contract matters to the sources). -/
def encodeVal : Value → List Nat
  | .vNull => [0]
  | .vBool b => [1, cond b 1 0]
  | .vInt n => [2, cond (decide (n < 0)) 1 0, n.natAbs]
  | .vStr s => 3 :: encodeStr s
  | .vArr xs => 4 :: xs.length :: encodeList xs
  | .vObj fs => 5 :: fs.length :: encodeFields fs

def encodeList : List Value → List Nat
  | [] => []
  | v :: vs => encodeVal v ++ encodeList vs

def encodeFields : List (String × Value) → List Nat
  | [] => []
  | (k, v) :: fs => encodeStr k ++ encodeVal v ++ encodeFields fs

end

/-- Read `n` code points from a byte sequence. -/
def readChars : Nat → List Nat → Option (List Char × List Nat)
  | 0, bs => some ([], bs)
  | _ + 1, [] => none
  | n + 1, b :: bs =>
    (readChars n bs).map fun p => (Char.ofNat b :: p.1, p.2)

/-- Decode one string (count-prefixed code points). -/
def decodeStr : List Nat → Option (String × List Nat)
  | [] => none
  | len :: bs => (readChars len bs).map fun p => (String.mk p.1, p.2)

/-- Decode `n` consecutive values using the element decoder `dec`. -/
def decodeMany (dec : List Nat → Option (Value × List Nat)) :
    Nat → List Nat → Option (List Value × List Nat)
  | 0, bs => some ([], bs)
  | n + 1, bs =>
    (dec bs).bind fun p =>
      (decodeMany dec n p.2).map fun q => (p.1 :: q.1, q.2)

/-- Decode `n` consecutive key/value pairs using the value decoder `dec`. -/
def decodeManyKV (dec : List Nat → Option (Value × List Nat)) :
    Nat → List Nat → Option (List (String × Value) × List Nat)
  | 0, bs => some ([], bs)
  | n + 1, bs =>
    (decodeStr bs).bind fun k =>
      (dec k.2).bind fun p =>
        (decodeManyKV dec n p.2).map fun q => ((k.1, p.1) :: q.1, q.2)

/-- Fuelled decoder for the modelled codec: decodes one value from the
front of a byte sequence, returning the value and the remaining bytes. -/
def decodeV : Nat → List Nat → Option (Value × List Nat)
  | 0, _ => none
  | _ + 1, [] => none
  | _ + 1, 0 :: bs => some (.vNull, bs)
  | _ + 1, 1 :: b :: bs => some (.vBool (b == 1), bs)
  | _ + 1, 1 :: [] => none
  | _ + 1, 2 :: 0 :: m :: bs => some (.vInt (m : Int), bs)
  | _ + 1, 2 :: (_ + 1) :: m :: bs => some (.vInt (-(m : Int)), bs)
  | _ + 1, 2 :: _ => none
  | _ + 1, 3 :: bs => (decodeStr bs).map fun p => (.vStr p.1, p.2)
  | fuel + 1, 4 :: len :: bs =>
    (decodeMany (decodeV fuel) len bs).map fun p => (.vArr p.1, p.2)
  | _ + 1, 4 :: [] => none
  | fuel + 1, 5 :: len :: bs =>
    (decodeManyKV (decodeV fuel) len bs).map fun p => (.vObj p.1, p.2)
  | _ + 1, 5 :: [] => none
  | _ + 1, _ :: _ => none

mutual

/-- Nesting depth of a value; bounds the fuel the decoder needs. -/
def vdepth : Value → Nat
  | .vNull => 1
  | .vBool _ => 1
  | .vInt _ => 1
  | .vStr _ => 1
  | .vArr xs => vdepthList xs + 1
  | .vObj fs => vdepthFields fs + 1

def vdepthList : List Value → Nat
  | [] => 0
  | v :: vs => max (vdepth v) (vdepthList vs)

def vdepthFields : List (String × Value) → Nat
  | [] => 0
  | (_, v) :: fs => max (vdepth v) (vdepthFields fs)

end

/-- Model of the external `@msgpack/msgpack` `decode`: decodes a whole byte
sequence into one value; fails (the library throws) on malformed input and
on trailing extra bytes. -/
def decodeTop (bs : List Nat) : Option Value :=
  match decodeV (bs.length + 1) bs with
  | some (v, []) => some v
  | _ => none

/-! ### Function-as-text

`Task` carries its function as source text (`func.toString()`), and the
worker bootstrap reconstructs a callable with
`new Function('return ' + source)()`.  These are JavaScript-runtime
operations on arbitrary user functions; they are modelled by an executable
renderer and parser over a fragment of arrow-function sources that covers
the behaviours the repository exercises: the identity function, a property
projection, and a function that throws. -/

/-- Abstract syntax of the modelled task functions (the callables a caller
can hand to `Task`). -/
inductive Fn where
  | idFn
  | proj (key : String)
  | throwErr (msg : String)
deriving Repr, DecidableEq

/-- Model of `Function.prototype.toString`: the canonical source text of a
modelled function. -/
def renderFn : Fn → String
  | .idFn => "(data) => data"
  | .proj k => "(data) => data." ++ k
  | .throwErr m => "(data) => \x7b throw new Error('" ++ m ++ "') \x7d"

/-- Result of evaluating `'return ' + source` in JavaScript: either a
callable or a plain (non-callable) value. -/
inductive ParsedJs where
  | fnVal (f : Fn)
  | plainVal (v : Value)

/-- Strip an expected leading run of characters. -/
def dropPre : List Char → List Char → Option (List Char)
  | [], cs => some cs
  | _ :: _, [] => none
  | p :: ps, c :: cs => if c = p then dropPre ps cs else none

/-- Strip an expected trailing run of characters. -/
def stripSuf (suf cs : List Char) : Option (List Char) :=
  if cs.length < suf.length then none
  else if cs.drop (cs.length - suf.length) = suf then
    some (cs.take (cs.length - suf.length))
  else none

/-- Characters allowed in a projected property name. -/
def isIdentChar (c : Char) : Bool := c.isAlphanum

/-- Characters allowed in a thrown error message. -/
def isMsgChar (c : Char) : Bool := c.isAlphanum || c = ' '

/-- Numeric value of a run of decimal digits. -/
def digitsToNat (cs : List Char) : Nat :=
  cs.foldl (fun n c => n * 10 + (c.toNat - 48)) 0

/-- Parser core over the character list of the source text. -/
def parseReturnL (cs : List Char) : Option ParsedJs :=
  if cs = "(data) => data".toList then some (.fnVal .idFn)
  else
    match dropPre "(data) => data.".toList cs with
    | some key =>
      if key.isEmpty = false && key.all isIdentChar then
        some (.fnVal (.proj (String.mk key)))
      else none
    | none =>
      match dropPre "(data) => \x7b throw new Error('".toList cs with
      | some afterPre =>
        match stripSuf "') \x7d".toList afterPre with
        | some msg =>
          if msg.all isMsgChar then some (.fnVal (.throwErr (String.mk msg)))
          else none
        | none => none
      | none =>
        if cs.isEmpty = false && cs.all Char.isDigit then
          some (.plainVal (.vInt (digitsToNat cs)))
        else none

/-- Model of `new Function('return ' + source)()`: `none` when the source
does not parse (the constructor throws), `some (.plainVal v)` when it
evaluates to a non-callable value, `some (.fnVal f)` when it evaluates to a
callable. -/
def parseReturn (s : String) : Option ParsedJs :=
  parseReturnL s.toList

/-- First field with the given key (JavaScript property lookup). -/
def lookupField (k : String) : List (String × Value) → Option Value
  | [] => none
  | (k', v) :: fs => if k' = k then some v else lookupField k fs

/-- Executable semantics of the modelled functions.  A projection applied
to a value without that property yields JavaScript `undefined`, modelled
here as `vNull`; `throwErr` raises. -/
def applyFn : Fn → Value → Except String Value
  | .idFn, v => .ok v
  | .proj k, v =>
    match v with
    | .vObj fs =>
      match lookupField k fs with
      | some u => .ok u
      | none => .ok .vNull
    | _ => .ok .vNull
  | .throwErr m, _ => .error m

/-- Model of the worker bootstrap script in `llama.ts`: reconstruct the
callable from the source text (`new Function` throws on bad source), decode
the payload with the shared codec (throws on corrupt bytes), then invoke
the callable (invoking a non-callable throws; the callable itself may
raise).  Any exception surfaces as a single error event. -/
def workerRun (func : String) (data : List Nat) : Except String Value :=
  match parseReturn func with
  | none => .error "SyntaxError: invalid function source"
  | some pf =>
    match decodeTop data with
    | none => .error "Error: failed to decode task data"
    | some v =>
      match pf with
      | .plainVal _ => .error "TypeError: taskFn is not a function"
      | .fnVal f => applyFn f v

/-! ### Task (`src/task.ts`)

`Task` is embedded with the same fields as the class: the public `id` and
`data` set by the constructor's parameter properties, the encoded payload
`taskData`, the function source `taskFn`, and the private worker handle
`llama` (a worker identifier, or `none` when no worker is owned).  Worker
identity is tracked by a `World` (the spawn counter and the set of
terminated workers), so spawning and terminating are explicit effects. -/

structure Task where
  id : String
  data : Value
  taskData : List Nat
  taskFn : String
  llama : Option Nat

/-- `new Task(id, data, func)`.  Arguments model JavaScript call sites:
`none` for `data` is a missing / `null` / `undefined` payload, and the
constructor's `!data` check also rejects any provided falsy value; `none`
for `func` is an argument that is not a callable (`typeof func !==
'function'`).  On success the payload is eagerly encoded and the function
serialized to its source text. -/
def Task.make (id : String) (data : Option Value) (func : Option Fn) :
    Except String Task :=
  if id = "" then .error "Task ID is required"
  else
    match data with
    | none => .error "Task data is required"
    | some d =>
      if truthy d = false then .error "Task data is required"
      else
        match func with
        | none => .error "Task function must be a valid function"
        | some f =>
          .ok { id := id, data := d, taskData := encodeVal d,
                taskFn := renderFn f, llama := none }

/-- `Task.isLargeDataset`: `JSON.stringify(data).length > 100000`. -/
def Task.isLargeDataset (d : Value) : Bool :=
  (jsonStringify d).length > 100000

/-- `Task.encodeDataObservable`: `from([data]).pipe(map(encode))`, modelled
as the list of values the observable emits (exactly one: the encoding). -/
def Task.encodeDataObservable (d : Value) : List (List Nat) :=
  [d].map encodeVal

/-- `Task.updateData(newData)`: rejects a missing or falsy payload; large
payloads are re-encoded through the observable stream (whose emissions
land in `taskData` as they arrive — `from` of an array emits synchronously
on subscribe), small ones synchronously.  Note the public `data` field is
not reassigned. -/
def Task.updateData (t : Task) (newData : Option Value) : Except String Task :=
  match newData with
  | none => .error "newData is required"
  | some d =>
    if truthy d = false then .error "newData is required"
    else if Task.isLargeDataset d then
      .ok { t with taskData := (Task.encodeDataObservable d).getLastD t.taskData }
    else
      .ok { t with taskData := encodeVal d }

/-- `Task.validate()`: true iff the encoded payload decodes without error
and the function source evaluates to a callable; total (never raises). -/
def Task.validate (t : Task) : Bool :=
  match decodeTop t.taskData with
  | none => false
  | some _ =>
    match parseReturn t.taskFn with
    | none => false
    | some (.plainVal _) => false
    | some (.fnVal _) => true

/-- The wire record `{id, data: Array.from(taskData), func: taskFn}`.
`JSON.stringify`/`JSON.parse` on this flat record of a string, an array of
byte numbers, and a string is lossless, so the record itself is the
modelled wire form. -/
structure SerializedTask where
  id : String
  data : List Nat
  func : String
deriving Repr, DecidableEq

/-- `Task.serialize()`. -/
def Task.serialize (t : Task) : SerializedTask :=
  { id := t.id, data := t.taskData, func := t.taskFn }

/-- `Task.deserialize(text)`: evaluates the function source (`new Function`
throws on a syntax error), decodes the byte array (throws on corrupt
bytes), and rebuilds the task through the constructor. -/
def Task.deserialize (s : SerializedTask) : Except String Task :=
  match parseReturn s.func with
  | none => .error "SyntaxError: invalid function source"
  | some pf =>
    match decodeTop s.data with
    | none => .error "Error: failed to decode task data"
    | some v =>
      Task.make s.id (some v)
        (match pf with
         | .fnVal f => some f
         | .plainVal _ => none)

/-- A valid task: one whose observable state satisfies the data-model
invariants the spec demands of every constructed task — a non-empty id, an
encoded payload that is the encoding of a truthy value, and a function
source that evaluates back to a callable whose source text it is. -/
def Task.WellFormed (t : Task) : Prop :=
  t.id ≠ "" ∧
  (∃ d, truthy d = true ∧ t.taskData = encodeVal d) ∧
  (∃ f, parseReturn t.taskFn = some (.fnVal f) ∧ renderFn f = t.taskFn)

/-- Worker-thread bookkeeping: a fresh identifier for each spawned Llama
and the set of terminated workers. -/
structure World where
  nextId : Nat
  terminated : List Nat
deriving Repr, DecidableEq

/-- Outcome delivered to `Task.run`'s promise: the worker's reply, or a
rejection wrapping the worker's error message. -/
def Task.runOutcome (t : Task) : Except String Value :=
  match workerRun t.taskFn t.taskData with
  | .ok v => .ok v
  | .error m => .error ("Failed to execute task " ++ t.id ++ ": " ++ m)

/-- `Task.run()`: unconditionally assigns a freshly spawned Llama to
`this.llama`, posts `{func, data}` to it, and settles with the worker's
reply or error.  Returns the updated task, the updated world (one more
worker spawned, none terminated), and the settled outcome. -/
def Task.run (t : Task) (w : World) : Task × World × Except String Value :=
  ({ t with llama := some w.nextId },
   { w with nextId := w.nextId + 1 },
   t.runOutcome)

/-- `Task.kill()`: terminates the owned Llama and releases it, or throws
`No worker (Llama) assigned to task <id>` when none is owned. -/
def Task.kill (t : Task) (w : World) : Except String (Task × World) :=
  match t.llama with
  | some h => .ok ({ t with llama := none },
                   { w with terminated := h :: w.terminated })
  | none => .error ("No worker (Llama) assigned to task " ++ t.id)

/-! ### Runner (`src/runner.ts`)

The runner's task list is the state; `runAllTasks` is the collect-partial
aggregation of `src/runner.ts`: every task observable is merged with
`mergeMap` (unbounded concurrency), each failure is swallowed by the inner
`catchError(() => [])`, and `toArray` collects the emissions.  RxJS
`mergeMap` emits inner results in the order the inner observables settle,
so the embedding takes the workers' completion order — a permutation of
the task indices — as an explicit parameter. -/

/-- `Runner.addTask`: appends to the task list. -/
def Runner.addTask (ts : List Task) (t : Task) : List Task := ts ++ [t]

/-- `Runner.runAllTasks()` under `src/runner.ts` (collect-partial): the
array collected by `toArray`, given the completion order of the workers.
Each settled task emits its result; failed tasks emit nothing. -/
def Runner.runAllTasks (ts : List Task) (order : List Nat) : List Value :=
  order.filterMap fun i => (ts.get? i).bind fun t => t.runOutcome.toOption

/-- A task status as observed on the runner's status stream. -/
inductive StatusKind where
  | running
  | completed
  | failed
deriving Repr, DecidableEq

/-- The status events `runAllTasks` pushes to `taskStatus`: a `running`
status per task at dispatch (submission order, when `mergeMap` subscribes),
then one terminal status per task in completion order. -/
def Runner.statusStream (ts : List Task) (order : List Nat) :
    List (String × StatusKind) :=
  (ts.map fun t => (t.id, StatusKind.running)) ++
    (order.filterMap fun i => (ts.get? i).map fun t =>
      (t.id, if t.runOutcome.toOption.isSome then StatusKind.completed
             else StatusKind.failed))

/-- `Runner.killAllTasks()`: `this.tasks.forEach(task => task.kill())` —
the first `kill` that throws aborts the loop and the exception propagates
to the caller. -/
def Runner.killAllTasks : List Task → World → Except String (List Task × World)
  | [], w => .ok ([], w)
  | t :: rest, w =>
    match t.kill w with
    | .error e => .error e
    | .ok (t', w') =>
      match Runner.killAllTasks rest w' with
      | .error e => .error e
      | .ok (ts', w'') => .ok (t' :: ts', w'')

/-! ### Buffer identity (heap model for `Task.clone`)

`Task.clone` promises independent `encodedPayload` storage ("mutating the
clone's bytes never changes the original's").  Byte-buffer identity is
invisible in a purely functional record, so clone is embedded against an
explicit store of allocated `Uint8Array` buffers: a task holds a reference
into the store, `new Uint8Array(...)` in the constructor allocates a fresh
buffer, and writes through one reference leave every other buffer
untouched. -/

/-- The allocated `Uint8Array` buffers; a reference is an index. -/
abbrev Store := List (List Nat)

/-- Contents of the buffer a reference designates. -/
def Store.readBuf (st : Store) (r : Nat) : List Nat :=
  (st[r]?).getD []

/-- Overwrite, in place, the bytes of the buffer a reference designates. -/
def Store.writeBuf (st : Store) (r : Nat) (bs : List Nat) : Store :=
  List.set st r bs

/-- `Task` with explicit buffer identity: `dataRef` designates the task's
`taskData` buffer inside the store. -/
structure TaskH where
  id : String
  data : Value
  dataRef : Nat
  taskFn : String

/-- The `Task` constructor under the heap model: the same checks as
`Task.make`, with `new Uint8Array(encode(data))` allocating a fresh
buffer at the end of the store. -/
def TaskH.make (st : Store) (id : String) (data : Option Value) (func : Option Fn) :
    Except String (Store × TaskH) :=
  if id = "" then .error "Task ID is required"
  else
    match data with
    | none => .error "Task data is required"
    | some d =>
      if truthy d = false then .error "Task data is required"
      else
        match func with
        | none => .error "Task function must be a valid function"
        | some f =>
          .ok (st ++ [encodeVal d],
               { id := id, data := d, dataRef := List.length st,
                 taskFn := renderFn f })

/-- `Task.clone()`: decode this task's buffer (throws on corrupt bytes),
deep-copy the value via the JSON round-trip, re-evaluate the function
source (`new Function` throws on bad source; the constructor rejects a
non-callable), and build a new task through the constructor, which
allocates a fresh buffer. -/
def TaskH.clone (st : Store) (t : TaskH) : Except String (Store × TaskH) :=
  match decodeTop (st.readBuf t.dataRef) with
  | none => .error "Error: failed to decode task data"
  | some v =>
    match parseReturn t.taskFn with
    | none => .error "SyntaxError: invalid function source"
    | some pf =>
      TaskH.make st t.id (some (jsonDeepCopy v))
        (match pf with
         | .fnVal f => some f
         | .plainVal _ => none)

/-! ### Concrete tasks used by the witnesses and counterexamples

Each record equals the output of the constructor on the stated arguments
(the accompanying theorems check this), with `llama` as stated. -/

/-- `new Task("one", 1, (data) => data)`. -/
def c1TaskA : Task :=
  { id := "one", data := .vInt 1, taskData := encodeVal (.vInt 1),
    taskFn := renderFn .idFn, llama := none }

/-- `new Task("two", 2, (data) => data)`. -/
def c1TaskB : Task :=
  { id := "two", data := .vInt 2, taskData := encodeVal (.vInt 2),
    taskFn := renderFn .idFn, llama := none }

/-- A task that owns no worker handle (`llama` is `null`), as every task
is right after construction. -/
def c2NoHandle : Task :=
  { id := "t1", data := .vObj [("key", .vStr "value1")],
    taskData := encodeVal (.vObj [("key", .vStr "value1")]),
    taskFn := renderFn (.proj "key"), llama := none }

/-- A task currently owning the live worker handle `0`. -/
def c2Live : Task :=
  { id := "t2", data := .vObj [("key", .vStr "value2")],
    taskData := encodeVal (.vObj [("key", .vStr "value2")]),
    taskFn := renderFn (.proj "key"), llama := some 0 }

/-- `new Task("w5", \x7bkey: "value"\x7d, (data) => data.key)`. -/
def c5Task : Task :=
  { id := "w5", data := .vObj [("key", .vStr "value")],
    taskData := encodeVal (.vObj [("key", .vStr "value")]),
    taskFn := renderFn (.proj "key"), llama := none }

/-- `new Task("t6", 1, (data) => data)`. -/
def c6Task : Task :=
  { id := "t6", data := .vInt 1, taskData := encodeVal (.vInt 1),
    taskFn := renderFn .idFn, llama := none }

/-- `new Task("t7", \x7bkey: "value"\x7d, (data) => data.key)`. -/
def c7Task : Task :=
  { id := "t7", data := .vObj [("key", .vStr "value")],
    taskData := encodeVal (.vObj [("key", .vStr "value")]),
    taskFn := renderFn (.proj "key"), llama := none }

/-- A task whose function returns its payload. -/
def c8TaskOk1 : Task :=
  { id := "a", data := .vInt 10, taskData := encodeVal (.vInt 10),
    taskFn := renderFn .idFn, llama := none }

/-- A task whose function throws (`(data) => { throw new Error('boom') }`). -/
def c8TaskFail : Task :=
  { id := "b", data := .vInt 20, taskData := encodeVal (.vInt 20),
    taskFn := renderFn (.throwErr "boom"), llama := none }

/-- A second succeeding task. -/
def c8TaskOk2 : Task :=
  { id := "c", data := .vInt 30, taskData := encodeVal (.vInt 30),
    taskFn := renderFn .idFn, llama := none }

/-- A one-buffer store holding `c9Task`'s encoded payload. -/
def c9Store : Store := [encodeVal (.vObj [("key", .vStr "value")])]

/-- A constructed task under the heap model, holding buffer `0`. -/
def c9Task : TaskH :=
  { id := "c9", data := .vObj [("key", .vStr "value")], dataRef := 0,
    taskFn := renderFn (.proj "key") }

/-- A task that already owns worker handle `5` when `run()` is called
again. -/
def c10Task : Task :=
  { id := "t10", data := .vObj [("key", .vStr "value")],
    taskData := encodeVal (.vObj [("key", .vStr "value")]),
    taskFn := renderFn (.proj "key"), llama := some 5 }

/-! ## Theorems

First the contracts of the modelled external collaborators (JSON deep
copy, codec round-trip), then general list lemmas, then one theorem per
specification claim. -/

mutual

theorem jsonDeepCopy_eq : ∀ v : Value, jsonDeepCopy v = v
  | .vNull => rfl
  | .vBool _ => rfl
  | .vInt _ => rfl
  | .vStr _ => rfl
  | .vArr xs => by rw [jsonDeepCopy, jsonDeepCopyList_eq]
  | .vObj fs => by rw [jsonDeepCopy, jsonDeepCopyFields_eq]

theorem jsonDeepCopyList_eq : ∀ vs : List Value, jsonDeepCopyList vs = vs
  | [] => rfl
  | v :: vs => by rw [jsonDeepCopyList, jsonDeepCopy_eq, jsonDeepCopyList_eq]

theorem jsonDeepCopyFields_eq :
    ∀ fs : List (String × Value), jsonDeepCopyFields fs = fs
  | [] => rfl
  | (k, v) :: fs => by
      rw [jsonDeepCopyFields, jsonDeepCopy_eq, jsonDeepCopyFields_eq]

end

theorem readChars_encode (cs : List Char) (rest : List Nat) :
    readChars cs.length (cs.map Char.toNat ++ rest) = some (cs, rest) := by
  induction cs with
  | nil => rfl
  | cons c cs ih => simp [readChars, ih, Char.ofNat_toNat]

theorem decodeStr_encodeStr (s : String) (rest : List Nat) :
    decodeStr (encodeStr s ++ rest) = some (s, rest) := by
  cases s with
  | mk data =>
    show (readChars data.length (data.map Char.toNat ++ rest)).map
        (fun p => (String.mk p.1, p.2)) = some (String.mk data, rest)
    rw [readChars_encode]
    rfl

theorem vdepth_le_vdepthList {v : Value} :
    ∀ {xs : List Value}, v ∈ xs → vdepth v ≤ vdepthList xs := by
  intro xs
  induction xs with
  | nil => intro h; cases h
  | cons x xs ih =>
    intro h
    rw [vdepthList]
    rcases List.mem_cons.mp h with h | h
    · subst h; exact le_max_left _ _
    · exact le_trans (ih h) (le_max_right _ _)

theorem vdepth_le_vdepthFields {k : String} {v : Value} :
    ∀ {fs : List (String × Value)}, (k, v) ∈ fs → vdepth v ≤ vdepthFields fs := by
  intro fs
  induction fs with
  | nil => intro h; cases h
  | cons p fs ih =>
    intro h
    obtain ⟨k', v'⟩ := p
    rw [vdepthFields]
    rcases List.mem_cons.mp h with h | h
    · rw [Prod.mk.injEq] at h
      rw [h.2]
      exact le_max_left _ _
    · exact le_trans (ih h) (le_max_right _ _)

theorem sizeOf_lt_of_mem_fields {k : String} {v : Value}
    {fs : List (String × Value)} (h : (k, v) ∈ fs) : sizeOf v < sizeOf fs := by
  have h1 := List.sizeOf_lt_of_mem h
  have h2 : sizeOf (k, v) = 1 + sizeOf k + sizeOf v := rfl
  omega

theorem decodeMany_encodeList (dec : List Nat → Option (Value × List Nat)) :
    ∀ (xs : List Value) (rest : List Nat),
      (∀ v ∈ xs, ∀ r : List Nat, dec (encodeVal v ++ r) = some (v, r)) →
      decodeMany dec xs.length (encodeList xs ++ rest) = some (xs, rest) := by
  intro xs
  induction xs with
  | nil => intro rest _; rfl
  | cons x xs ih =>
    intro rest h
    rw [encodeList, List.append_assoc]
    show (dec (encodeVal x ++ (encodeList xs ++ rest))).bind
        (fun p => (decodeMany dec xs.length p.2).map fun q => (p.1 :: q.1, q.2)) =
      some (x :: xs, rest)
    rw [h x (List.mem_cons_self x xs)]
    show (decodeMany dec xs.length (encodeList xs ++ rest)).map
        (fun q => (x :: q.1, q.2)) = some (x :: xs, rest)
    rw [ih rest (fun v hv r => h v (List.mem_cons_of_mem _ hv) r)]
    rfl

theorem decodeManyKV_encodeFields (dec : List Nat → Option (Value × List Nat)) :
    ∀ (fs : List (String × Value)) (rest : List Nat),
      (∀ k v, (k, v) ∈ fs → ∀ r : List Nat, dec (encodeVal v ++ r) = some (v, r)) →
      decodeManyKV dec fs.length (encodeFields fs ++ rest) = some (fs, rest) := by
  intro fs
  induction fs with
  | nil => intro rest _; rfl
  | cons p fs ih =>
    intro rest h
    obtain ⟨k, v⟩ := p
    rw [encodeFields, List.append_assoc, List.append_assoc]
    show (decodeStr (encodeStr k ++ (encodeVal v ++ (encodeFields fs ++ rest)))).bind
        (fun kk => (dec kk.2).bind fun p =>
          (decodeManyKV dec fs.length p.2).map fun q => ((kk.1, p.1) :: q.1, q.2)) =
      some ((k, v) :: fs, rest)
    rw [decodeStr_encodeStr]
    show (dec (encodeVal v ++ (encodeFields fs ++ rest))).bind
        (fun p => (decodeManyKV dec fs.length p.2).map fun q => ((k, p.1) :: q.1, q.2)) =
      some ((k, v) :: fs, rest)
    rw [h k v (List.mem_cons_self _ _)]
    show (decodeManyKV dec fs.length (encodeFields fs ++ rest)).map
        (fun q => ((k, v) :: q.1, q.2)) = some ((k, v) :: fs, rest)
    rw [ih rest (fun k' v' hv r => h k' v' (List.mem_cons_of_mem _ hv) r)]
    rfl

theorem decodeV_encodeVal :
    ∀ (v : Value) (fuel : Nat) (rest : List Nat), vdepth v ≤ fuel →
      decodeV fuel (encodeVal v ++ rest) = some (v, rest)
  | .vNull, _ + 1, _, _ => rfl
  | .vBool b, _ + 1, _, _ => by cases b <;> rfl
  | .vInt n, fuel + 1, rest, _ => by
      rcases lt_or_le n 0 with h | h
      · have hd : decide (n < 0) = true := decide_eq_true h
        have hn : -(n.natAbs : Int) = n := by omega
        rw [encodeVal, hd]
        show some (Value.vInt (-(n.natAbs : Int)), rest) = some (Value.vInt n, rest)
        rw [hn]
      · have hd : decide (n < 0) = false := decide_eq_false (by omega)
        have hn : (n.natAbs : Int) = n := by omega
        rw [encodeVal, hd]
        show some (Value.vInt (n.natAbs : Int), rest) = some (Value.vInt n, rest)
        rw [hn]
  | .vStr s, fuel + 1, rest, _ => by
      rw [encodeVal]
      show (decodeStr (encodeStr s ++ rest)).map (fun p => (Value.vStr p.1, p.2)) =
        some (Value.vStr s, rest)
      rw [decodeStr_encodeStr]
      rfl
  | .vArr xs, fuel + 1, rest, h => by
      have hs : vdepthList xs ≤ fuel := by rw [vdepth] at h; omega
      rw [encodeVal]
      show (decodeMany (decodeV fuel) xs.length (encodeList xs ++ rest)).map
          (fun p => (Value.vArr p.1, p.2)) = some (Value.vArr xs, rest)
      rw [decodeMany_encodeList (decodeV fuel) xs rest
        (fun v hv r => decodeV_encodeVal v fuel r
          (le_trans (vdepth_le_vdepthList hv) hs))]
      rfl
  | .vObj fs, fuel + 1, rest, h => by
      have hs : vdepthFields fs ≤ fuel := by rw [vdepth] at h; omega
      rw [encodeVal]
      show (decodeManyKV (decodeV fuel) fs.length (encodeFields fs ++ rest)).map
          (fun p => (Value.vObj p.1, p.2)) = some (Value.vObj fs, rest)
      rw [decodeManyKV_encodeFields (decodeV fuel) fs rest
        (fun k v hv r => decodeV_encodeVal v fuel r
          (le_trans (vdepth_le_vdepthFields hv) hs))]
      rfl
termination_by v fuel _rest _h => sizeOf v
decreasing_by
  all_goals simp_wf
  · have := List.sizeOf_lt_of_mem hv
    omega
  · have := sizeOf_lt_of_mem_fields hv
    omega

mutual

theorem vdepth_le_length :
    ∀ v : Value, vdepth v ≤ (encodeVal v).length
  | .vNull => Nat.le_refl 1
  | .vBool _ => by rw [vdepth, encodeVal]; exact Nat.le_succ 1
  | .vInt _ => by rw [vdepth, encodeVal]; exact Nat.le_add_right 1 2
  | .vStr s => by
      rw [vdepth, encodeVal, List.length_cons]
      exact Nat.succ_le_succ (Nat.zero_le _)
  | .vArr xs => by
      have h := vdepthList_le_length xs
      rw [vdepth, encodeVal, List.length_cons, List.length_cons]
      omega
  | .vObj fs => by
      have h := vdepthFields_le_length fs
      rw [vdepth, encodeVal, List.length_cons, List.length_cons]
      omega

theorem vdepthList_le_length :
    ∀ xs : List Value, vdepthList xs ≤ (encodeList xs).length
  | [] => Nat.le_refl 0
  | x :: xs => by
      have h1 := vdepth_le_length x
      have h2 := vdepthList_le_length xs
      rw [vdepthList, encodeList, List.length_append]
      omega

theorem vdepthFields_le_length :
    ∀ fs : List (String × Value), vdepthFields fs ≤ (encodeFields fs).length
  | [] => Nat.le_refl 0
  | (k, v) :: fs => by
      have h1 := vdepth_le_length v
      have h2 := vdepthFields_le_length fs
      rw [vdepthFields, encodeFields, List.length_append, List.length_append]
      omega

end

/-- Round-trip contract of the modelled codec: decoding an encoding
reproduces the value. -/
theorem decodeTop_encodeVal (v : Value) : decodeTop (encodeVal v) = some v := by
  have h : vdepth v ≤ (encodeVal v).length + 1 :=
    le_trans (vdepth_le_length v) (Nat.le_succ _)
  have := decodeV_encodeVal v ((encodeVal v).length + 1) [] h
  simp only [List.append_nil] at this
  simp [decodeTop, this]

/-! ### List lemmas for the runner's aggregation -/

/-- Collecting through the submission-order index list is collecting over
the task list itself. -/
theorem range_filterMap_get {α β : Type} (ts : List α) (g : α → Option β) :
    (List.range ts.length).filterMap (fun i => (ts.get? i).bind g) =
      ts.filterMap g := by
  induction ts with
  | nil => rfl
  | cons a l ih =>
    rw [List.length_cons, List.range_succ_eq_map, List.filterMap_cons,
      List.filterMap_map]
    have hfn : ((fun i => ((a :: l).get? i).bind g) ∘ Nat.succ) =
        fun i => (l.get? i).bind g := rfl
    rw [hfn, ih]
    cases hga : g a <;> simp [List.filterMap_cons, hga]

/-- Successes and failures partition a list. -/
theorem length_filterMap_add_filter {α β : Type} (g : α → Option β)
    (l : List α) :
    (l.filterMap g).length + (l.filter fun a => (g a).isNone).length =
      l.length := by
  induction l with
  | nil => rfl
  | cons a l ih =>
    cases hga : g a <;>
      simp [List.filterMap_cons, List.filter_cons, hga] <;>
      omega

/-! ### Claims about the Runner's aggregation (C1, C8) -/

/-- C1 counterexample: the two tasks `one` and `two` below are submitted
in that order; when their workers complete in the order `[two, one]`,
`runAllTasks` aggregates `[2, 1]` — completion order — and not the
submission-order array `[1, 2]` that the claim requires regardless of
completion order. -/
theorem c1_runAllTasks_not_submission_order :
    Task.make "one" (some (.vInt 1)) (some .idFn) = .ok c1TaskA ∧
    Task.make "two" (some (.vInt 2)) (some .idFn) = .ok c1TaskB ∧
    Runner.addTask (Runner.addTask [] c1TaskA) c1TaskB = [c1TaskA, c1TaskB] ∧
    c1TaskA.runOutcome = .ok (.vInt 1) ∧
    c1TaskB.runOutcome = .ok (.vInt 2) ∧
    Runner.runAllTasks [c1TaskA, c1TaskB] [1, 0] = [.vInt 2, .vInt 1] ∧
    Runner.runAllTasks [c1TaskA, c1TaskB] [1, 0] ≠ [.vInt 1, .vInt 2] := by
  refine ⟨rfl, rfl, rfl, rfl, rfl, rfl, ?_⟩
  intro hcontra
  have h2 : ([Value.vInt 2, Value.vInt 1] : List Value) =
      [Value.vInt 1, Value.vInt 2] := hcontra
  injection h2 with ha hb
  injection ha with hn
  exact absurd hn (by decide)

/-- C1 amended: `runAllTasks` returns the successful results in the
workers' completion order, not reordered to submission order: for every
completion order the aggregate is a permutation of the submission-order
successes, and it coincides with the submission-order aggregate when (and
only by coincidence of orders) the workers complete in submission order. -/
theorem c1_runAllTasks_completion_order (ts : List Task) (order : List Nat)
    (h : order.Perm (List.range ts.length)) :
    (Runner.runAllTasks ts order).Perm
      (ts.filterMap fun t => t.runOutcome.toOption) ∧
    Runner.runAllTasks ts (List.range ts.length) =
      ts.filterMap fun t => t.runOutcome.toOption := by
  constructor
  · have hp := List.Perm.filterMap
      (fun i => (ts.get? i).bind fun t => t.runOutcome.toOption) h
    rw [range_filterMap_get] at hp
    exact hp
  · exact range_filterMap_get ts _

/-- C1 amended, witness at the counterexample's two tasks with completion
order `[1, 0]`. -/
theorem c1_runAllTasks_completion_order_witness :
    (Runner.runAllTasks [c1TaskA, c1TaskB] [1, 0]).Perm
      ([c1TaskA, c1TaskB].filterMap fun t => t.runOutcome.toOption) ∧
    Runner.runAllTasks [c1TaskA, c1TaskB]
        (List.range [c1TaskA, c1TaskB].length) =
      [c1TaskA, c1TaskB].filterMap fun t => t.runOutcome.toOption :=
  c1_runAllTasks_completion_order [c1TaskA, c1TaskB] [1, 0] (by decide)

/-- C8: under the collect-partial policy of `src/runner.ts`, for every
batch of N tasks of which M fail and every completion order, the aggregate
array has length N − M (failures are omitted); the aggregation is a total
function into a plain list — the inner `catchError(() => [])` swallows
every failure, so the run as a whole never rejects — and every failed task
is observable through a `failed` status on the status stream. -/
theorem c8_collect_partial (ts : List Task) (order : List Nat)
    (h : order.Perm (List.range ts.length)) :
    (Runner.runAllTasks ts order).length =
      ts.length - (ts.filter fun t => t.runOutcome.toOption.isNone).length ∧
    ∀ t ∈ ts, t.runOutcome.toOption.isNone = true →
      (t.id, StatusKind.failed) ∈ Runner.statusStream ts order := by
  constructor
  · have hp := List.Perm.filterMap
      (fun i => (ts.get? i).bind fun t => t.runOutcome.toOption) h
    rw [range_filterMap_get] at hp
    have hlen := hp.length_eq
    have hsum := length_filterMap_add_filter
      (fun t : Task => t.runOutcome.toOption) ts
    show (order.filterMap fun i =>
      (ts.get? i).bind fun t => t.runOutcome.toOption).length = _
    omega
  · intro t ht hfail
    obtain ⟨i, hi⟩ := List.get?_of_mem ht
    obtain ⟨hlt, -⟩ := List.get?_eq_some.mp hi
    have hmem : i ∈ order := h.mem_iff.mpr (List.mem_range.mpr hlt)
    unfold Runner.statusStream
    apply List.mem_append_right
    apply List.mem_filterMap.mpr
    refine ⟨i, hmem, ?_⟩
    rw [hi]
    have hns : t.runOutcome.toOption.isSome = false := by
      cases hx : t.runOutcome.toOption with
      | none => rfl
      | some v => rw [hx] at hfail; cases hfail
    simp [hns]

/-! ### Claims about teardown and construction (C2, C3) -/

/-- C2: `killAllTasks` does not skip a task without a live handle — the
`NoHandleError` thrown by the first such `kill()` propagates out of the
`forEach`, so teardown of the remaining tasks is never attempted, although
the remaining task's own `kill()` would have succeeded.  This contradicts
the claim (and the repository's own Runner test, which calls
`killAllTasks` on freshly constructed tasks whose handles are still null).
The first conjunct evaluates the code at the failing input; the last shows
the skipped remainder was killable. -/
theorem c2_killAllTasks_raises_on_missing_handle :
    c2NoHandle.llama = none ∧
    c2Live.llama = some 0 ∧
    Runner.killAllTasks [c2NoHandle, c2Live] { nextId := 1, terminated := [] } =
      .error "No worker (Llama) assigned to task t1" ∧
    Runner.killAllTasks [c2Live] { nextId := 1, terminated := [] } =
      .ok ([{ c2Live with llama := none }], { nextId := 1, terminated := [0] }) :=
  ⟨rfl, rfl, rfl, rfl⟩

/-- C3 counterexample: the constructor's `!data` check rejects the
intentionally supplied falsy payloads `0`, `""` and `false` with the same
missing-payload error used for an absent payload, although the claim says
they are accepted and encoded. -/
theorem c3_falsy_payloads_rejected :
    Task.make "t1" (some (.vInt 0)) (some .idFn) =
      .error "Task data is required" ∧
    Task.make "t1" (some (.vStr "")) (some .idFn) =
      .error "Task data is required" ∧
    Task.make "t1" (some (.vBool false)) (some .idFn) =
      .error "Task data is required" :=
  ⟨rfl, rfl, rfl⟩

/-- C3 amended: the constructor raises the missing-payload error exactly
for absent or falsy payloads — `null`/`undefined`, `0`, `""`, `false` —
and accepts and eagerly encodes every truthy payload, which includes the
empty object and the empty array. -/
theorem c3_ctor_truthiness (id : String) (d : Value) (f : Fn)
    (hid : id ≠ "") :
    (truthy d = true →
      Task.make id (some d) (some f) =
        .ok { id := id, data := d, taskData := encodeVal d,
              taskFn := renderFn f, llama := none }) ∧
    (truthy d = false →
      Task.make id (some d) (some f) = .error "Task data is required") ∧
    Task.make id none (some f) = .error "Task data is required" := by
  refine ⟨?_, ?_, ?_⟩
  · intro ht; simp [Task.make, hid, ht]
  · intro ht; simp [Task.make, hid, ht]
  · simp [Task.make, hid]

/-- C3 amended, witness: the empty object is truthy and accepted. -/
theorem c3_ctor_truthiness_witness :
    (truthy (.vObj []) = true →
      Task.make "t3" (some (.vObj [])) (some .idFn) =
        .ok { id := "t3", data := .vObj [], taskData := encodeVal (.vObj []),
              taskFn := renderFn .idFn, llama := none }) ∧
    (truthy (.vObj []) = false →
      Task.make "t3" (some (.vObj [])) (some .idFn) =
        .error "Task data is required") ∧
    Task.make "t3" none (some .idFn) = .error "Task data is required" :=
  c3_ctor_truthiness "t3" (.vObj []) .idFn (by decide)

/-! ### validate (C4) -/

/-- C4: for every task in any state, `validate()` returns `true` exactly
when the encoded payload decodes without error and the function source
evaluates to a callable; it is a total boolean function (each risky step
sits inside the modelled try/catch, so `validate` never raises). -/
theorem c4_validate_iff (t : Task) :
    t.validate = true ↔
      (decodeTop t.taskData).isSome = true ∧
        ∃ f, parseReturn t.taskFn = some (.fnVal f) := by
  unfold Task.validate
  cases hd : decodeTop t.taskData with
  | none => simp [hd]
  | some v =>
    cases hp : parseReturn t.taskFn with
    | none => simp [hp, hd]
    | some pf =>
      cases pf with
      | plainVal u => simp [hd, hp]
      | fnVal f => simp [hd, hp]

/-! ### Serialization round-trip (C5) -/

/-- C5: for every valid task, `deserialize(serialize(t))` reconstructs a
task observationally equal to `t`: the same id, a structurally equal
decoded payload, and the same function text. -/
theorem c5_deserialize_serialize (t : Task) (h : t.WellFormed) :
    ∃ t', Task.deserialize t.serialize = .ok t' ∧
      t'.id = t.id ∧
      decodeTop t'.taskData = decodeTop t.taskData ∧
      t'.taskFn = t.taskFn := by
  obtain ⟨hid, ⟨d, hd, hdata⟩, ⟨f, hps, hrf⟩⟩ := h
  refine ⟨{ id := t.id, data := d, taskData := encodeVal d,
            taskFn := renderFn f, llama := none }, ?_, rfl, ?_, hrf⟩
  · have h1 : Task.deserialize t.serialize = Task.make t.id (some d) (some f) := by
      unfold Task.deserialize
      simp only [Task.serialize, hps, hdata, decodeTop_encodeVal]
    rw [h1]
    simp [Task.make, hid, hd]
  · rw [hdata]

/-- C5, witness: a task with payload `\x7bkey: "value"\x7d` and function
`(data) => data.key`. -/
theorem c5_deserialize_serialize_witness :
    ∃ t', Task.deserialize c5Task.serialize = .ok t' ∧
      t'.id = c5Task.id ∧
      decodeTop t'.taskData = decodeTop c5Task.taskData ∧
      t'.taskFn = c5Task.taskFn :=
  c5_deserialize_serialize c5Task
    ⟨by decide, ⟨.vObj [("key", .vStr "value")], rfl, rfl⟩,
     ⟨.proj "key", rfl, rfl⟩⟩

/-! ### Payload re-encoding (C6) -/

/-- Inversion of the constructor: it succeeds exactly on a non-empty id
and truthy payload, and then produces the record with the eagerly encoded
payload and rendered function source. -/
theorem Task.make_ok_iff (id : String) (d : Value) (f : Fn) (t : Task) :
    Task.make id (some d) (some f) = .ok t ↔
      (id ≠ "" ∧ truthy d = true ∧
        t = { id := id, data := d, taskData := encodeVal d,
              taskFn := renderFn f, llama := none }) := by
  constructor
  · intro hmk
    by_cases hid : id = ""
    · subst hid
      rw [show Task.make "" (some d) (some f) =
        .error "Task ID is required" from rfl] at hmk
      cases hmk
    · by_cases htr : truthy d = true
      · have h2 : Task.make id (some d) (some f) =
            .ok { id := id, data := d, taskData := encodeVal d,
                  taskFn := renderFn f, llama := none } := by
          simp [Task.make, hid, htr]
        rw [h2] at hmk
        injection hmk with hmk
        exact ⟨hid, htr, hmk.symm⟩
      · have htr' : truthy d = false := by
          cases htruthy : truthy d
          · rfl
          · exact absurd htruthy htr
        have h2 : Task.make id (some d) (some f) =
            .error "Task data is required" := by
          simp [Task.make, hid, htr']
        rw [h2] at hmk
        cases hmk
  · rintro ⟨hid, htr, rfl⟩
    simp [Task.make, hid, htr]

/-- Inversion of `updateData` on a provided payload: it succeeds exactly
on a truthy payload, and then — on either encoding path — the stored
bytes are `encode(newData)` while every other field is unchanged. -/
theorem Task.updateData_ok_iff (t t' : Task) (d : Value) :
    t.updateData (some d) = .ok t' ↔
      (truthy d = true ∧ t' = { t with taskData := encodeVal d }) := by
  constructor
  · intro h
    by_cases htr : truthy d = true
    · by_cases hlarge : Task.isLargeDataset d = true
      · have h2 : t.updateData (some d) =
            .ok { t with taskData :=
              (Task.encodeDataObservable d).getLastD t.taskData } := by
          simp [Task.updateData, htr, hlarge]
        rw [h2] at h
        injection h with h
        refine ⟨htr, ?_⟩
        rw [← h]
        rfl
      · have h2 : t.updateData (some d) =
            .ok { t with taskData := encodeVal d } := by
          simp [Task.updateData, htr, hlarge]
        rw [h2] at h
        injection h with h
        exact ⟨htr, h.symm⟩
    · have htr' : truthy d = false := by
        cases htruthy : truthy d
        · rfl
        · exact absurd htruthy htr
      have h2 : t.updateData (some d) = .error "newData is required" := by
        simp [Task.updateData, htr']
      rw [h2] at h
      cases h
  · rintro ⟨htr, rfl⟩
    by_cases hlarge : Task.isLargeDataset d = true
    · show Task.updateData t (some d) =
        .ok { t with taskData := (Task.encodeDataObservable d).getLastD t.taskData }
      simp [Task.updateData, htr, hlarge]
    · simp [Task.updateData, htr, hlarge]

/-- C6 counterexample: after `updateData` the encoded payload decodes to
the new value, but the task's public `data` field — the payload attribute
of the data model — still holds the value supplied at construction, so
`decode(encodedPayload)` is no longer structurally equal to the stored
payload: the round-trip invariant is not re-established on mutation. -/
theorem c6_updateData_stale_payload_field :
    Task.make "t6" (some (.vInt 1)) (some .idFn) = .ok c6Task ∧
    ∃ t', c6Task.updateData (some (.vInt 2)) = .ok t' ∧
      decodeTop t'.taskData = some (.vInt 2) ∧
      t'.data = .vInt 1 ∧
      Value.vInt 2 ≠ Value.vInt 1 := by
  refine ⟨rfl, { c6Task with taskData := encodeVal (.vInt 2) }, rfl, ?_, rfl, ?_⟩
  · exact decodeTop_encodeVal (.vInt 2)
  · intro hcontra
    injection hcontra with hn
    exact absurd hn (by decide)

/-- C6 amended: after construction `decode(encodedPayload)` equals the
stored payload, and after every `updateData(newData)` it equals `newData`
(the public `data` field keeps its original value); both the streamed
large-payload path and the synchronous small path converge on the same
final encoded bytes `encode(newData)`. -/
theorem c6_encode_roundtrip (id : String) (dat d : Value) (f : Fn)
    (t t' : Task) (hmk : Task.make id (some dat) (some f) = .ok t)
    (hupd : t.updateData (some d) = .ok t') :
    decodeTop t.taskData = some t.data ∧
    t.data = dat ∧
    decodeTop t'.taskData = some d ∧
    t'.taskData = encodeVal d ∧
    (Task.encodeDataObservable d).getLastD t.taskData = encodeVal d ∧
    t'.data = t.data := by
  obtain ⟨hid, htr, ht⟩ := (Task.make_ok_iff id dat f t).mp hmk
  obtain ⟨htr', ht'⟩ := (Task.updateData_ok_iff t t' d).mp hupd
  subst ht'
  subst ht
  exact ⟨decodeTop_encodeVal dat, rfl, decodeTop_encodeVal d, rfl, rfl, rfl⟩

/-- C6 amended, witness: construct with the empty object, update to a
string payload. -/
theorem c6_encode_roundtrip_witness :
    decodeTop c6Task.taskData = some c6Task.data ∧
    c6Task.data = .vInt 1 ∧
    decodeTop ({ c6Task with taskData := encodeVal (.vStr "x") } : Task).taskData =
      some (.vStr "x") ∧
    ({ c6Task with taskData := encodeVal (.vStr "x") } : Task).taskData =
      encodeVal (.vStr "x") ∧
    (Task.encodeDataObservable (.vStr "x")).getLastD c6Task.taskData =
      encodeVal (.vStr "x") ∧
    ({ c6Task with taskData := encodeVal (.vStr "x") } : Task).data =
      c6Task.data :=
  c6_encode_roundtrip "t6" (.vInt 1) (.vStr "x") .idFn c6Task
    { c6Task with taskData := encodeVal (.vStr "x") } rfl rfl

/-! ### Worker-handle lifecycle (C7, C10) -/

/-- C7: `kill()` with no owned handle raises `NoHandleError`; after a
successful `run()` the task owns the freshly spawned handle, `kill()`
succeeds, terminates it and sets the handle to null, and a second `kill()`
on the same task raises `NoHandleError`. -/
theorem c7_kill_lifecycle (t : Task) (w : World) :
    (t.llama = none →
      t.kill w = .error ("No worker (Llama) assigned to task " ++ t.id)) ∧
    (∀ t₁ w₁ r, t.run w = (t₁, w₁, r) → r.isOk = true →
      t₁.llama = some w.nextId ∧
      ∃ t₂ w₂, t₁.kill w₁ = .ok (t₂, w₂) ∧ t₂.llama = none ∧
        w₂.terminated = w.nextId :: w₁.terminated ∧
        t₂.kill w₂ =
          .error ("No worker (Llama) assigned to task " ++ t.id)) := by
  constructor
  · intro h
    unfold Task.kill
    rw [h]
  · intro t₁ w₁ r hrun _hok
    unfold Task.run at hrun
    injection hrun with h1 h23
    injection h23 with h2 h3
    subst h1; subst h2
    exact ⟨rfl, { t with llama := none }, _, rfl, rfl, rfl, rfl⟩

/-- C7, witness: a freshly constructed task (no handle) in a fresh world;
its `run()` succeeds, after which the kill/kill-again behaviour follows. -/
theorem c7_kill_lifecycle_witness :
    c7Task.kill { nextId := 0, terminated := [] } =
      .error "No worker (Llama) assigned to task t7" ∧
    ∃ t₂ w₂,
      (c7Task.run { nextId := 0, terminated := [] }).1.kill
          (c7Task.run { nextId := 0, terminated := [] }).2.1 = .ok (t₂, w₂) ∧
      t₂.llama = none ∧
      t₂.kill w₂ = .error "No worker (Llama) assigned to task t7" := by
  obtain ⟨h1, h2⟩ := c7_kill_lifecycle c7Task { nextId := 0, terminated := [] }
  refine ⟨h1 rfl, ?_⟩
  obtain ⟨-, t₂, w₂, hk, hn, -, hk2⟩ := h2 _ _ _ rfl rfl
  exact ⟨t₂, w₂, hk, hn, hk2⟩

/-- C10: `run()` unconditionally overwrites the handle with the freshly
spawned worker and never terminates the previously owned one: after the
call the handle is the new worker (non-null) and a subsequent `kill()`
succeeds, while the world's terminated set is unchanged by `run()` — the
old worker keeps running, merely orphaned. -/
theorem c10_run_overwrites_handle (t : Task) (w : World) (h : Nat)
    (_hh : t.llama = some h) :
    (t.run w).1.llama = some w.nextId ∧
    (t.run w).2.1.terminated = w.terminated ∧
    (t.run w).2.1.nextId = w.nextId + 1 ∧
    ∃ t₂ w₂, (t.run w).1.kill (t.run w).2.1 = .ok (t₂, w₂) ∧
      t₂.llama = none ∧ w₂.terminated = w.nextId :: w.terminated :=
  ⟨rfl, rfl, rfl, { t with llama := none }, _, rfl, rfl, rfl⟩

/-- C10, witness: a task already owning handle `5`; `run()` replaces it
with the fresh handle `6` without terminating `5`, and the subsequent
`kill()` terminates only `6`. -/
theorem c10_run_overwrites_handle_witness :
    (c10Task.run { nextId := 6, terminated := [] }).1.llama = some 6 ∧
    (c10Task.run { nextId := 6, terminated := [] }).2.1.terminated = [] ∧
    (c10Task.run { nextId := 6, terminated := [] }).2.1.nextId = 7 ∧
    ∃ t₂ w₂,
      (c10Task.run { nextId := 6, terminated := [] }).1.kill
          (c10Task.run { nextId := 6, terminated := [] }).2.1 = .ok (t₂, w₂) ∧
      t₂.llama = none ∧ w₂.terminated = [6] :=
  c10_run_overwrites_handle c10Task { nextId := 6, terminated := [] } 5 rfl

/-! ### Clone independence (C9) -/

/-- C9: for every valid task, `clone()` returns a new task with the same
id, a structurally equal decoded payload and the same function text, and
its encoded-payload storage is a freshly allocated buffer distinct from
the original's, so writing bytes through either task's buffer reference
leaves the other task's bytes unchanged. -/
theorem c9_clone_independent (st : Store) (t : TaskH) (d : Value) (f : Fn)
    (href : t.dataRef < st.length)
    (hbuf : st.readBuf t.dataRef = encodeVal d)
    (hd : truthy d = true)
    (hid : t.id ≠ "")
    (hps : parseReturn t.taskFn = some (.fnVal f))
    (hrf : renderFn f = t.taskFn) :
    ∃ st' t', TaskH.clone st t = .ok (st', t') ∧
      t'.id = t.id ∧
      decodeTop (st'.readBuf t'.dataRef) = some d ∧
      decodeTop (st'.readBuf t.dataRef) = some d ∧
      t'.taskFn = t.taskFn ∧
      t'.dataRef ≠ t.dataRef ∧
      (∀ bs, (st'.writeBuf t'.dataRef bs).readBuf t.dataRef =
        st'.readBuf t.dataRef) ∧
      (∀ bs, (st'.writeBuf t.dataRef bs).readBuf t'.dataRef =
        st'.readBuf t'.dataRef) := by
  have hne : st.length ≠ t.dataRef := ne_of_gt href
  refine ⟨st ++ [encodeVal d],
    { id := t.id, data := d, dataRef := st.length, taskFn := renderFn f },
    ?_, rfl, ?_, ?_, hrf, hne, ?_, ?_⟩
  · unfold TaskH.clone
    rw [hbuf, decodeTop_encodeVal, hps]
    show TaskH.make st t.id (some (jsonDeepCopy d)) (some f) =
      .ok (st ++ [encodeVal d],
        { id := t.id, data := d, dataRef := List.length st,
          taskFn := renderFn f })
    rw [jsonDeepCopy_eq]
    simp [TaskH.make, hid, hd]
  · show decodeTop (((st ++ [encodeVal d])[st.length]?).getD []) = some d
    rw [List.getElem?_concat_length]
    exact decodeTop_encodeVal d
  · show decodeTop (((st ++ [encodeVal d])[t.dataRef]?).getD []) = some d
    rw [List.getElem?_append_left href]
    show decodeTop (st.readBuf t.dataRef) = some d
    rw [hbuf]
    exact decodeTop_encodeVal d
  · intro bs
    show ((((st ++ [encodeVal d]).set st.length bs)[t.dataRef]?).getD []) =
      (((st ++ [encodeVal d])[t.dataRef]?).getD [])
    rw [List.getElem?_set_ne hne]
  · intro bs
    show ((((st ++ [encodeVal d]).set t.dataRef bs)[st.length]?).getD []) =
      (((st ++ [encodeVal d])[st.length]?).getD [])
    rw [List.getElem?_set_ne (Ne.symm hne)]

/-- C9, witness: a one-buffer store and the task constructed into it. -/
theorem c9_clone_independent_witness :
    ∃ st' t', TaskH.clone c9Store c9Task = .ok (st', t') ∧
      t'.id = c9Task.id ∧
      decodeTop (st'.readBuf t'.dataRef) = some (.vObj [("key", .vStr "value")]) ∧
      decodeTop (st'.readBuf c9Task.dataRef) =
        some (.vObj [("key", .vStr "value")]) ∧
      t'.taskFn = c9Task.taskFn ∧
      t'.dataRef ≠ c9Task.dataRef ∧
      (∀ bs, (st'.writeBuf t'.dataRef bs).readBuf c9Task.dataRef =
        st'.readBuf c9Task.dataRef) ∧
      (∀ bs, (st'.writeBuf c9Task.dataRef bs).readBuf t'.dataRef =
        st'.readBuf t'.dataRef) :=
  c9_clone_independent c9Store c9Task (.vObj [("key", .vStr "value")])
    (.proj "key") (by decide) rfl rfl (by decide) rfl rfl

/-- C8, witness: three tasks of which the middle one throws, completing in
the order `[2, 0, 1]`. -/
theorem c8_collect_partial_witness :
    (Runner.runAllTasks [c8TaskOk1, c8TaskFail, c8TaskOk2] [2, 0, 1]).length =
      3 - ([c8TaskOk1, c8TaskFail, c8TaskOk2].filter
        fun t => t.runOutcome.toOption.isNone).length ∧
    ∀ t ∈ [c8TaskOk1, c8TaskFail, c8TaskOk2],
      t.runOutcome.toOption.isNone = true →
      (t.id, StatusKind.failed) ∈
        Runner.statusStream [c8TaskOk1, c8TaskFail, c8TaskOk2] [2, 0, 1] :=
  c8_collect_partial [c8TaskOk1, c8TaskFail, c8TaskOk2] [2, 0, 1] (by decide)

end ParaLlama
